import Mathlib

/-!
Shallow embedding of the smart-waste-sorter backend
(`src/backend/server.py`, `src/backend/database_models.py`).

The embedding models the Flask route handlers as pure functions over an
explicit database state.  Outcomes of the outbound network calls (the Azure
Custom Vision request, the Azure OpenAI chat completion) and of the Pillow
thumbnail encoding are passed in as `Except` values, since those calls are
external collaborators; everything the handlers do with those outcomes is
translated from the source.
-/

namespace SmartWasteSorter

/-- Entry of the image classifier's JSON `predictions` list.  Each entry is a
JSON object that may or may not carry the `tagName` / `probability` keys, so
both fields are optional (`p.get("tagName")` / `p["probability"]` in the
source).  Probabilities are modelled as rationals. -/
structure Prediction where
  tagName : Option String
  probability : Option Rat
deriving Repr, DecidableEq

/-- Parsed JSON body of a successful image-classifier response
(`results = response.json()` in `predict`).  Only the `predictions` key is
consulted (`results.get("predictions")`), and it may be absent. -/
structure ImageResults where
  predictions : Option (List Prediction)
deriving Repr, DecidableEq

/-- Row of the `prediction_history` table (`database_models.py`).
`predicted_tag` is kept as `Option String` because the ORM object can be
constructed with `predicted_tag=None`; the column is `nullable=False`, which
the store's append models by rejecting the commit (IntegrityError). -/
structure PredictionHistory where
  id : Nat
  image_thumbnail : Option (List Nat)
  predicted_tag : Option String
  probability : Option Rat
  timestamp : Nat
deriving Repr, DecidableEq

/-- State of the backing database: the persisted rows in insertion order, the
next primary key the store will assign, and the clock value used for the
`default=datetime.utcnow` timestamp of the next insert. -/
structure Database where
  records : List PredictionHistory
  nextId : Nat
  now : Nat
deriving Repr, DecidableEq

/-- Commit of one new row (`db.session.add` + `db.session.commit`).  The
`predicted_tag` column is `nullable=False`, so committing a row whose tag is
`None` raises `IntegrityError`, modelled as `.error ()`; otherwise the store
assigns `id` and `timestamp` and appends the row. -/
def Database.append (s : Database) (thumb : Option (List Nat))
    (tag : Option String) (prob : Option Rat) : Except Unit Database :=
  match tag with
  | none => .error ()
  | some t =>
    .ok ⟨s.records ++ [⟨s.nextId, thumb, some t, prob, s.now⟩], s.nextId + 1, s.now⟩

/-- Failure modes of the image-classifier call, as the source distinguishes
them: `requests.exceptions.HTTPError` raised by `raise_for_status` (carrying
the upstream status and body) versus any other exception (network failure,
JSON parse failure), which the handler's generic `except` catches. -/
inductive ClassifyErr where
  | httpError (status : Nat) (body : String)
  | other
deriving Repr, DecidableEq

/-- HTTP outcome of the `/predict` route: the two 400 validation responses
(with the source's message strings), the 500 response of the
`requests.exceptions.HTTPError` branch, the generic 500 response of the
`except Exception` branch, and the 200 `jsonify(results)` success. -/
inductive ImgOutcome where
  | validationError (msg : String)
  | httpError (status : Nat) (body : String)
  | internalError
  | success (results : ImageResults)
deriving Repr, DecidableEq

/-- Inner loop of Python's `max(xs, key=lambda p: p["probability"])` over the
tail of the list: keep the current best and replace it only when a strictly
greater key appears (so the first-seen maximal element wins ties); a missing
`probability` key raises `KeyError`, modelled as `.error ()`. -/
def maxGo (best : Prediction) (bestKey : Rat) :
    List Prediction → Except Unit Prediction
  | [] => .ok best
  | q :: qs =>
    match q.probability with
    | none => .error ()
    | some k => if bestKey < k then maxGo q k qs else maxGo best bestKey qs

/-- Python's `max(predictions, key=lambda p: p["probability"])`: `max` of an
empty sequence raises, a missing key raises `KeyError`, otherwise the
first-seen entry with the greatest probability is returned. -/
def maxByProbability : List Prediction → Except Unit Prediction
  | [] => .error ()
  | p :: ps =>
    match p.probability with
    | none => .error ()
    | some k => maxGo p k ps

/-- Probability key of an entry, defaulting to 0; only used to state
properties of lists on which `maxByProbability` succeeded, where every entry's
probability is present. -/
def probOf (p : Prediction) : Rat := p.probability.getD 0

/-- Route handler `predict` (`/predict`, `server.py` lines 68-133).
`file` is `none` when `'file' not in request.files`, otherwise the pair of
`file.filename` and the uploaded bytes.  `classify` is the combined outcome of
the outbound Azure request, `raise_for_status` and `response.json()`;
`thumb` is the outcome of the Pillow decode / resize / JPEG re-encode of the
original bytes.  Every raised exception lands in one of the two `except`
branches before any commit, so those branches leave the database unchanged. -/
def predict (file : Option (String × List Nat))
    (classify : Except ClassifyErr ImageResults)
    (thumb : Except Unit (List Nat)) (s : Database) : ImgOutcome × Database :=
  match file with
  | none => (.validationError "No file part in the request", s)
  | some (filename, _imageData) =>
    if filename = "" then (.validationError "No image selected for uploading", s)
    else
      match classify with
      | .error (.httpError st body) => (.httpError st body, s)
      | .error .other => (.internalError, s)
      | .ok results =>
        match results.predictions with
        | none => (.success results, s)
        | some [] => (.success results, s)
        | some (p :: ps) =>
          match maxByProbability (p :: ps) with
          | .error _ => (.internalError, s)
          | .ok top =>
            match thumb with
            | .error _ => (.internalError, s)
            | .ok thumbnailData =>
              match s.append (some thumbnailData) top.tagName top.probability with
              | .error _ => (.internalError, s)
              | .ok s2 => (.success results, s2)

/-- Parsed JSON object produced by `json.loads` on the model's reply in
`predict_text`; `result_data.get('item')` and the `category` field may each
be absent. -/
structure ParsedText where
  category : Option String
  item : Option String
deriving Repr, DecidableEq

/-- Failure modes of the text-classifier call: any exception from the OpenAI
client (network, provider error), caught by the generic `except Exception`
branch, versus `json.JSONDecodeError` from `json.loads`, caught by its own
branch. -/
inductive UpstreamTextErr where
  | apiFailure
  | badJson
deriving Repr, DecidableEq

/-- HTTP outcome of the `/predict-text` route: the 503 not-configured
response, the 400 validation response, the 500 invalid-format response of the
`JSONDecodeError` branch, the generic 500 response of the `except Exception`
branch, and the 200 `jsonify(result_data)` success. -/
inductive TextOutcome where
  | serviceUnavailable
  | validationError
  | invalidFormat
  | genericError
  | success (result : ParsedText)
deriving Repr, DecidableEq

/-- Route handler `predict_text` (`/predict-text`, `server.py` lines 135-197).
`configured` is whether `openai_client` is set; `body` is the parsed JSON
request body as an association list (`none` when `request.get_json()` yields
nothing).  The source's guard `not data or 'description' not in data`
is the disjunction of the body being the empty object and the key being
absent.  `upstream` combines the chat-completion call, the content extraction
and `json.loads`.  A commit rejected by the `NOT NULL` constraint on
`predicted_tag` (missing `item` field) raises `IntegrityError`, which the
generic `except Exception` branch turns into the generic 500. -/
def predict_text (configured : Bool) (body : Option (List (String × String)))
    (upstream : Except UpstreamTextErr ParsedText) (s : Database) :
    TextOutcome × Database :=
  match configured with
  | false => (.serviceUnavailable, s)
  | true =>
    match body with
    | none => (.validationError, s)
    | some data =>
      if data = [] ∨ List.lookup "description" data = none then (.validationError, s)
      else
        match upstream with
        | .error .apiFailure => (.genericError, s)
        | .error .badJson => (.invalidFormat, s)
        | .ok resultData =>
          match s.append none resultData.item none with
          | .error _ => (.genericError, s)
          | .ok s2 => (.success resultData, s2)

/-- Item of the JSON array returned by `/history`: id, tag, probability and
timestamp of one row (`record.timestamp.isoformat()` kept as the numeric
clock value). -/
structure HistoryItem where
  id : Nat
  predicted_tag : Option String
  probability : Option Rat
  timestamp : Nat
deriving Repr, DecidableEq

/-- Stable insertion of a row into a list already sorted by descending
timestamp: the row goes in front of the first element whose timestamp is not
greater, so among equal timestamps earlier-inserted rows stay first. -/
def insertByTsDesc (r : PredictionHistory) :
    List PredictionHistory → List PredictionHistory
  | [] => [r]
  | y :: ys =>
    if y.timestamp ≤ r.timestamp then r :: y :: ys else y :: insertByTsDesc r ys

/-- Model of the query `order_by(PredictionHistory.timestamp.desc()).all()`:
a stable sort of the stored rows by descending timestamp.  The query names no
secondary sort key, so ties between equal timestamps are returned in the
engine's scan order, i.e. insertion order, which a stable sort preserves. -/
def sortByTsDesc : List PredictionHistory → List PredictionHistory
  | [] => []
  | x :: xs => insertByTsDesc x (sortByTsDesc xs)

/-- Route handler `get_history` (`/history`, `server.py` lines 199-220):
list every row ordered by `timestamp.desc()` and project each to its JSON
shape. -/
def get_history (s : Database) : List HistoryItem :=
  (sortByTsDesc s.records).map fun record =>
    ⟨record.id, record.predicted_tag, record.probability, record.timestamp⟩

/-- Exceptions that the body of `get_history_image` can raise: the
`werkzeug` `NotFound` raised by `query.get_or_404` for a missing id, and the
`TypeError` raised by buffering `record.image_thumbnail` when the column is
`None` (text-origin row). -/
inductive PyExc where
  | notFoundAbort
  | typeErr
deriving Repr, DecidableEq

/-- Body of the `/history/image/<id>` response: either the JSON error object
`{"error": "Failed to retrieve image", "details": str(e)}` with the raised
exception standing for the detail string, or the binary thumbnail. -/
inductive ThumbBody where
  | errorBody (details : PyExc)
  | fileBody (bytes : List Nat)
deriving Repr, DecidableEq

/-- Full HTTP response of the `/history/image/<id>` route: status code plus
body. -/
structure ThumbResponse where
  status : Nat
  body : ThumbBody
deriving Repr, DecidableEq

/-- Route handler `get_history_image` (`/history/image/<id>`, `server.py`
lines 222-236).  `get_or_404` raises `werkzeug.exceptions.NotFound`, which is
a subclass of `Exception`, so the handler's own `except Exception` catches it
and returns the generic 500 error response — the 404 never reaches the
caller.  A row whose `image_thumbnail` is `None` makes `BytesIO(None)` raise
`TypeError`, caught by the same branch and yielding the same 500 response
kind (only the `details` string differs). -/
def get_history_image (s : Database) (recordId : Nat) : ThumbResponse :=
  match s.records.find? (fun rec => rec.id == recordId) with
  | none => ⟨500, .errorBody .notFoundAbort⟩
  | some record =>
    match record.image_thumbnail with
    | none => ⟨500, .errorBody .typeErr⟩
    | some b => ⟨200, .fileBody b⟩

/-- Appending one element always changes a list. -/
theorem records_ne_append (s : Database) (r : PredictionHistory) :
    s.records ≠ s.records ++ [r] := by
  intro h
  have h2 := congrArg List.length h
  simp at h2

/-- Claim C2: for every execution of the image or the text entry point in
which the classifier call, the response parsing or the thumbnail encoding
fails, the database is left unchanged — no partial record is persisted. -/
theorem no_partial_records_on_failure :
    (∀ file e thumb s, (predict file (.error e) thumb s).2 = s) ∧
    (∀ file classify s, (predict file classify (.error ()) s).2 = s) ∧
    (∀ configured body e s, (predict_text configured body (.error e) s).2 = s) := by
  refine ⟨?_, ?_, ?_⟩
  · intro file e thumb s
    cases file with
    | none => rfl
    | some fb =>
      obtain ⟨fn, bts⟩ := fb
      by_cases hfn : fn = "" <;> cases e <;> simp [predict, hfn]
  · intro file classify s
    cases file with
    | none => rfl
    | some fb =>
      obtain ⟨fn, bts⟩ := fb
      by_cases hfn : fn = ""
      · simp [predict, hfn]
      · cases classify with
        | error e => cases e <;> simp [predict, hfn]
        | ok results =>
          obtain ⟨po⟩ := results
          cases po with
          | none => simp [predict, hfn]
          | some pl =>
            cases pl with
            | nil => simp [predict, hfn]
            | cons p ps =>
              cases hm : maxByProbability (p :: ps) with
              | error u => simp [predict, hfn, hm]
              | ok top => simp [predict, hfn, hm]
  · intro configured body e s
    cases configured with
    | false => rfl
    | true =>
      cases body with
      | none => rfl
      | some data =>
        by_cases hd : data = [] ∨ List.lookup "description" data = none
        · cases e <;> (simp only [predict_text]; rw [if_pos hd])
        · cases e <;> (simp only [predict_text]; rw [if_neg hd])

/-- Claim C3: an image-classifier response whose `predictions` list is
missing or empty makes `predict` skip persistence (database unchanged) while
still returning the empty result as a success. -/
theorem predict_empty_predictions_no_persist (filename : String)
    (bytes : List Nat) (results : ImageResults) (thumb : Except Unit (List Nat))
    (s : Database) (hfn : filename ≠ "")
    (hpred : results.predictions = none ∨ results.predictions = some []) :
    predict (some (filename, bytes)) (.ok results) thumb s = (.success results, s) := by
  obtain ⟨po⟩ := results
  rcases hpred with h | h <;> simp only [ImageResults.predictions] at h <;>
    subst h <;> simp [predict, hfn]

/-- Witness for C3 at a concrete input: a response with no `predictions` key
is answered successfully and persists nothing. -/
theorem predict_empty_predictions_no_persist_witness :
    ("img.jpg" ≠ "" ∧ (ImageResults.mk none).predictions = none) ∧
    predict (some ("img.jpg", [1, 2])) (.ok (ImageResults.mk none)) (.ok [3])
      ⟨[], 1, 0⟩ = (.success (ImageResults.mk none), ⟨[], 1, 0⟩) :=
  ⟨⟨by decide, rfl⟩,
    predict_empty_predictions_no_persist "img.jpg" [1, 2] (ImageResults.mk none)
      (.ok [3]) ⟨[], 1, 0⟩ (by decide) (Or.inl rfl)⟩

/-- Claim C4: while the text classifier client is not configured,
`predict_text` always answers 503 service-unavailable — an outcome distinct
from the generic upstream failure and from the malformed-response failure —
for every request body and every would-be upstream outcome (so the language
model is never consulted), and the database is unchanged. -/
theorem predict_text_unconfigured_service_unavailable :
    (∀ body upstream s, predict_text false body upstream s = (.serviceUnavailable, s)) ∧
    TextOutcome.serviceUnavailable ≠ TextOutcome.genericError ∧
    TextOutcome.serviceUnavailable ≠ TextOutcome.invalidFormat := by
  exact ⟨fun _ _ _ => rfl, by decide, by decide⟩

/-- Invariant of the `max` loop: a successful run either keeps the incoming
best element (and then nothing in the list has a strictly greater key), or
returns an element of the list that strictly exceeds the incoming best and
every element before it, while everything after it is no greater. -/
theorem maxGo_spec (l : List Prediction) :
    ∀ (best : Prediction) (bk : Rat), best.probability = some bk →
    ∀ r, maxGo best bk l = .ok r →
    (r = best ∧ ∀ q ∈ l, probOf q ≤ bk) ∨
    (∃ l₁ l₂, l = l₁ ++ r :: l₂ ∧ bk < probOf r ∧
      (∀ q ∈ l₁, probOf q < probOf r) ∧ (∀ q ∈ l₂, probOf q ≤ probOf r)) := by
  induction l with
  | nil =>
    intro best bk _ r h
    left
    simp only [maxGo] at h
    cases h
    exact ⟨rfl, by simp⟩
  | cons q qs ih =>
    intro best bk hbk r h
    simp only [maxGo] at h
    cases hq : q.probability with
    | none => rw [hq] at h; cases h
    | some k =>
      simp only [hq] at h
      have hprobq : probOf q = k := by simp [probOf, hq]
      by_cases hlt : bk < k
      · rw [if_pos hlt] at h
        rcases ih q k hq r h with ⟨rfl, hall⟩ | ⟨l₁, l₂, heq, hgt, h₁, h₂⟩
        · right
          refine ⟨[], qs, by simp, ?_, by simp, ?_⟩
          · rw [hprobq]; exact hlt
          · intro x hx; rw [hprobq]; exact hall x hx
        · right
          refine ⟨q :: l₁, l₂, by simp [heq], ?_, ?_, h₂⟩
          · calc bk < k := hlt
              _ < probOf r := hprobq ▸ hgt
          · intro x hx
            rcases List.mem_cons.mp hx with rfl | hx
            · rw [hprobq]; exact hprobq ▸ hgt
            · exact h₁ x hx
      · rw [if_neg hlt] at h
        rcases ih best bk hbk r h with ⟨rfl, hall⟩ | ⟨l₁, l₂, heq, hgt, h₁, h₂⟩
        · left
          refine ⟨rfl, ?_⟩
          intro x hx
          rcases List.mem_cons.mp hx with rfl | hx
          · rw [hprobq]; exact le_of_not_lt hlt
          · exact hall x hx
        · right
          refine ⟨q :: l₁, l₂, by simp [heq], hgt, ?_, h₂⟩
          intro x hx
          rcases List.mem_cons.mp hx with rfl | hx
          · rw [hprobq]
            exact lt_of_le_of_lt (le_of_not_lt hlt) hgt
          · exact h₁ x hx

/-- Correctness of Python's `max` with the probability key: a successful call
returns an element of the list such that every element before it has a
strictly smaller key and every element after it has a key no greater — the
first-seen maximum (stable max). -/
theorem maxByProbability_spec (l : List Prediction) (r : Prediction)
    (h : maxByProbability l = .ok r) :
    ∃ l₁ l₂, l = l₁ ++ r :: l₂ ∧
      (∀ q ∈ l₁, probOf q < probOf r) ∧ (∀ q ∈ l₂, probOf q ≤ probOf r) := by
  cases l with
  | nil => cases h
  | cons p ps =>
    simp only [maxByProbability] at h
    cases hp : p.probability with
    | none => rw [hp] at h; cases h
    | some k =>
      simp only [hp] at h
      have hprobp : probOf p = k := by simp [probOf, hp]
      rcases maxGo_spec ps p k hp r h with ⟨rfl, hall⟩ | ⟨l₁, l₂, heq, hgt, h₁, h₂⟩
      · refine ⟨[], ps, by simp, by simp, ?_⟩
        intro x hx
        rw [hprobp]
        exact hall x hx
      · refine ⟨p :: l₁, l₂, by simp [heq], ?_, h₂⟩
        intro x hx
        rcases List.mem_cons.mp hx with rfl | hx
        · rw [hprobp]; exact hgt
        · exact h₁ x hx

/-- A `probability` key missing anywhere in the remaining list makes the
`max` loop raise `KeyError`. -/
theorem maxGo_err (l : List Prediction) (p : Prediction) (hp : p ∈ l)
    (hnone : p.probability = none) :
    ∀ best bk, maxGo best bk l = .error () := by
  induction l with
  | nil => cases hp
  | cons q qs ih =>
    intro best bk
    rcases List.mem_cons.mp hp with rfl | hmem
    · simp [maxGo, hnone]
    · cases hq : q.probability with
      | none => simp [maxGo, hq]
      | some k =>
        simp only [maxGo, hq]
        by_cases hlt : bk < k
        · rw [if_pos hlt]; exact ih hmem q k
        · rw [if_neg hlt]; exact ih hmem best bk

/-- A `probability` key missing anywhere in the list makes Python's `max`
with the probability key raise `KeyError`. -/
theorem maxByProbability_err (l : List Prediction) (p : Prediction)
    (hp : p ∈ l) (hnone : p.probability = none) :
    maxByProbability l = .error () := by
  cases l with
  | nil => cases hp
  | cons q qs =>
    rcases List.mem_cons.mp hp with rfl | hmem
    · simp [maxByProbability, hnone]
    · cases hq : q.probability with
      | none => simp [maxByProbability, hq]
      | some k =>
        simp only [maxByProbability, hq]
        exact maxGo_err qs p hmem hnone q k

/-- Claim C10: a non-empty predictions list in which some entry lacks the
`probability` key makes the selection step's direct key lookup raise, so the
request ends in the generic 500 error — not the classification result — and
the database is unchanged. -/
theorem predict_missing_probability_key_fails (filename : String)
    (bytes : List Nat) (results : ImageResults) (preds : List Prediction)
    (p : Prediction) (thumb : Except Unit (List Nat)) (s : Database)
    (hfn : filename ≠ "") (hpreds : results.predictions = some preds)
    (hp : p ∈ preds) (hnone : p.probability = none) :
    predict (some (filename, bytes)) (.ok results) thumb s = (.internalError, s) := by
  obtain ⟨po⟩ := results
  simp only [ImageResults.predictions] at hpreds
  subst hpreds
  cases preds with
  | nil => cases hp
  | cons q qs =>
    have hmax := maxByProbability_err (q :: qs) p hp hnone
    simp [predict, hfn, hmax]

/-- Witness for C10 at a concrete input: the second entry lacks the
`probability` key, the request fails generically and nothing is stored. -/
theorem predict_missing_probability_key_fails_witness :
    ("a.jpg" ≠ "" ∧
      (ImageResults.mk (some [⟨some "glass", some (mkRat 1 2)⟩, ⟨some "metal", none⟩])).predictions
        = some [⟨some "glass", some (mkRat 1 2)⟩, ⟨some "metal", none⟩] ∧
      (⟨some "metal", none⟩ : Prediction) ∈
        [⟨some "glass", some (mkRat 1 2)⟩, (⟨some "metal", none⟩ : Prediction)] ∧
      (⟨some "metal", none⟩ : Prediction).probability = none) ∧
    predict (some ("a.jpg", [1]))
      (.ok (ImageResults.mk (some [⟨some "glass", some (mkRat 1 2)⟩, ⟨some "metal", none⟩])))
      (.ok [2]) ⟨[], 1, 0⟩ = (.internalError, ⟨[], 1, 0⟩) :=
  ⟨⟨by decide, rfl, by simp, rfl⟩,
    predict_missing_probability_key_fails "a.jpg" [1]
      (ImageResults.mk (some [⟨some "glass", some (mkRat 1 2)⟩, ⟨some "metal", none⟩]))
      [⟨some "glass", some (mkRat 1 2)⟩, ⟨some "metal", none⟩] ⟨some "metal", none⟩
      (.ok [2]) ⟨[], 1, 0⟩ (by decide) rfl (by simp) rfl⟩

/-- A branch of `predict` that returns the incoming database cannot have
appended a record. -/
theorem eq_pair_no_append {X out : ImgOutcome} {s s' : Database}
    {r : PredictionHistory} (hrun : (X, s) = (out, s'))
    (happ : s'.records = s.records ++ [r]) : False := by
  injection hrun with h1 h2
  subst h2
  exact records_ne_append s r happ

/-- Claim C1: whenever a run of `predict` appends a record, the classifier
response was a success with a non-empty predictions list splitting as
`l₁ ++ top :: l₂` where every entry before `top` has a strictly smaller
probability and every entry after it has one no greater (so `top` is the
first-seen maximum), and the persisted record carries exactly `top`'s
`tagName` and `probability`. -/
theorem predict_persists_stable_max (file : Option (String × List Nat))
    (classify : Except ClassifyErr ImageResults) (thumb : Except Unit (List Nat))
    (s : Database) (out : ImgOutcome) (s' : Database) (r : PredictionHistory)
    (hrun : predict file classify thumb s = (out, s'))
    (happ : s'.records = s.records ++ [r]) :
    ∃ results preds l₁ l₂ top,
      classify = .ok results ∧ results.predictions = some preds ∧
      preds = l₁ ++ top :: l₂ ∧
      (∀ q ∈ l₁, probOf q < probOf top) ∧ (∀ q ∈ l₂, probOf q ≤ probOf top) ∧
      r.predicted_tag = top.tagName ∧ r.probability = top.probability := by
  cases file with
  | none =>
    simp only [predict] at hrun
    exact (eq_pair_no_append hrun happ).elim
  | some fb =>
    obtain ⟨fn, bts⟩ := fb
    by_cases hfn : fn = ""
    · simp only [predict] at hrun
      rw [if_pos hfn] at hrun
      exact (eq_pair_no_append hrun happ).elim
    · simp only [predict] at hrun
      rw [if_neg hfn] at hrun
      cases classify with
      | error e =>
        cases e <;> exact (eq_pair_no_append hrun happ).elim
      | ok results =>
        obtain ⟨po⟩ := results
        cases po with
        | none => exact (eq_pair_no_append hrun happ).elim
        | some pl =>
          cases pl with
          | nil => exact (eq_pair_no_append hrun happ).elim
          | cons p ps =>
            dsimp only at hrun
            cases hmax : maxByProbability (p :: ps) with
            | error u =>
              rw [hmax] at hrun
              exact (eq_pair_no_append hrun happ).elim
            | ok top =>
              rw [hmax] at hrun
              dsimp only at hrun
              cases thumb with
              | error u => exact (eq_pair_no_append hrun happ).elim
              | ok td =>
                dsimp only at hrun
                cases htag : top.tagName with
                | none =>
                  simp only [Database.append, htag] at hrun
                  exact (eq_pair_no_append hrun happ).elim
                | some t =>
                  simp only [Database.append, htag] at hrun
                  injection hrun with h1 h2
                  subst h2
                  simp only [Database.records] at happ
                  have hr : (⟨s.nextId, some td, some t, top.probability, s.now⟩ :
                      PredictionHistory) = r := by
                    have h3 := List.append_cancel_left happ
                    exact (List.cons.injEq ..).mp h3 |>.1
                  subst hr
                  obtain ⟨l₁, l₂, heq, hlt, hle⟩ := maxByProbability_spec (p :: ps) top hmax
                  exact ⟨⟨some (p :: ps)⟩, p :: ps, l₁, l₂, top, rfl, rfl, heq, hlt, hle,
                    by simp [htag], rfl⟩

/-- Witness for C1 at the spec's tie scenario: two entries share probability
91/100 and the first-seen one (`plastic_bottle`) is persisted. -/
theorem predict_persists_stable_max_witness :
    (predict (some ("f.jpg", [1]))
        (.ok ⟨some [⟨some "plastic_bottle", some (mkRat 91 100)⟩, ⟨some "glass", some (mkRat 91 100)⟩]⟩)
        (.ok [2]) ⟨[], 1, 0⟩ =
      (.success ⟨some [⟨some "plastic_bottle", some (mkRat 91 100)⟩, ⟨some "glass", some (mkRat 91 100)⟩]⟩,
        ⟨[⟨1, some [2], some "plastic_bottle", some (mkRat 91 100), 0⟩], 2, 0⟩) ∧
      (⟨[⟨1, some [2], some "plastic_bottle", some (mkRat 91 100), 0⟩], 2, 0⟩ : Database).records =
        (⟨[], 1, 0⟩ : Database).records ++ [⟨1, some [2], some "plastic_bottle", some (mkRat 91 100), 0⟩]) ∧
    ∃ results preds l₁ l₂ top,
      (Except.ok ⟨some [⟨some "plastic_bottle", some (mkRat 91 100)⟩, ⟨some "glass", some (mkRat 91 100)⟩]⟩ :
          Except ClassifyErr ImageResults) = .ok results ∧
      results.predictions = some preds ∧
      preds = l₁ ++ top :: l₂ ∧
      (∀ q ∈ l₁, probOf q < probOf top) ∧ (∀ q ∈ l₂, probOf q ≤ probOf top) ∧
      (⟨1, some [2], some "plastic_bottle", some (mkRat 91 100), 0⟩ :
        PredictionHistory).predicted_tag = top.tagName ∧
      (⟨1, some [2], some "plastic_bottle", some (mkRat 91 100), 0⟩ :
        PredictionHistory).probability = top.probability :=
  ⟨⟨by decide, by decide⟩,
    predict_persists_stable_max (some ("f.jpg", [1]))
      (.ok ⟨some [⟨some "plastic_bottle", some (mkRat 91 100)⟩, ⟨some "glass", some (mkRat 91 100)⟩]⟩)
      (.ok [2]) ⟨[], 1, 0⟩
      (.success ⟨some [⟨some "plastic_bottle", some (mkRat 91 100)⟩, ⟨some "glass", some (mkRat 91 100)⟩]⟩)
      ⟨[⟨1, some [2], some "plastic_bottle", some (mkRat 91 100), 0⟩], 2, 0⟩
      ⟨1, some [2], some "plastic_bottle", some (mkRat 91 100), 0⟩ (by decide) (by decide)⟩

/-- Membership after a stable descending insertion. -/
theorem mem_insertByTsDesc {z r : PredictionHistory} {l : List PredictionHistory}
    (h : z ∈ insertByTsDesc r l) : z = r ∨ z ∈ l := by
  induction l with
  | nil => simpa [insertByTsDesc] using h
  | cons y ys ih =>
    simp only [insertByTsDesc] at h
    by_cases hc : y.timestamp ≤ r.timestamp
    · rw [if_pos hc] at h
      simpa using h
    · rw [if_neg hc] at h
      rcases List.mem_cons.mp h with rfl | h2
      · exact Or.inr (List.mem_cons_self ..)
      · rcases ih h2 with rfl | h3
        · exact Or.inl rfl
        · exact Or.inr (List.mem_cons_of_mem _ h3)

/-- Stable descending insertion preserves the non-increasing-timestamp
ordering. -/
theorem pairwise_insertByTsDesc (r : PredictionHistory)
    (l : List PredictionHistory)
    (h : List.Pairwise (fun a b => b.timestamp ≤ a.timestamp) l) :
    List.Pairwise (fun a b => b.timestamp ≤ a.timestamp) (insertByTsDesc r l) := by
  induction l with
  | nil => simp [insertByTsDesc]
  | cons y ys ih =>
    rcases List.pairwise_cons.mp h with ⟨hy, hys⟩
    simp only [insertByTsDesc]
    by_cases hc : y.timestamp ≤ r.timestamp
    · rw [if_pos hc]
      refine List.pairwise_cons.mpr ⟨?_, h⟩
      intro z hz
      rcases List.mem_cons.mp hz with rfl | hz2
      · exact hc
      · exact le_trans (hy z hz2) hc
    · rw [if_neg hc]
      refine List.pairwise_cons.mpr ⟨?_, ih hys⟩
      intro z hz
      rcases mem_insertByTsDesc hz with rfl | hz2
      · exact le_of_lt (lt_of_not_le hc)
      · exact hy z hz2

/-- The modelled `ORDER BY timestamp DESC` sort yields a list whose
timestamps are non-increasing. -/
theorem pairwise_sortByTsDesc (l : List PredictionHistory) :
    List.Pairwise (fun a b => b.timestamp ≤ a.timestamp) (sortByTsDesc l) := by
  induction l with
  | nil => simp [sortByTsDesc]
  | cons x xs ih => exact pairwise_insertByTsDesc x _ ih

/-- Claim C5, amended: for every database state, `get_history` lists the
records in non-increasing timestamp order.  (The id tie-break the claim adds
on top of this is refuted separately.) -/
theorem get_history_timestamp_sorted (s : Database) :
    List.Pairwise (fun a b : HistoryItem => b.timestamp ≤ a.timestamp)
      (get_history s) := by
  refine List.Pairwise.map _ ?_ (pairwise_sortByTsDesc s.records)
  intro a b hab
  exact hab

/-- Counterexample to claim C5 as stated: two rows share a timestamp and the
query — which orders by `timestamp.desc()` alone — returns them in insertion
order, so the earlier (smaller) id comes first, violating the claimed
non-increasing-id tie-break. -/
theorem get_history_tie_order_counterexample :
    get_history ⟨[⟨1, none, some "plastic bottle", none, 5⟩,
        ⟨2, none, some "glass", none, 5⟩], 3, 6⟩ =
      [⟨1, some "plastic bottle", none, 5⟩, ⟨2, some "glass", none, 5⟩] ∧
    ¬ List.Pairwise
        (fun a b : HistoryItem => b.timestamp ≤ a.timestamp ∧
          (b.timestamp = a.timestamp → b.id ≤ a.id))
        (get_history ⟨[⟨1, none, some "plastic bottle", none, 5⟩,
          ⟨2, none, some "glass", none, 5⟩], 3, 6⟩) := by
  refine ⟨by decide, ?_⟩
  rw [show get_history ⟨[⟨1, none, some "plastic bottle", none, 5⟩,
      ⟨2, none, some "glass", none, 5⟩], 3, 6⟩ =
    [⟨1, some "plastic bottle", none, 5⟩, ⟨2, some "glass", none, 5⟩] from by decide]
  intro h
  have h2 := (List.pairwise_cons.mp h).1 ⟨2, some "glass", none, 5⟩
    (List.mem_cons_self ..)
  exact absurd (h2.2 rfl) (by decide)

/-- Evidence for claim C6 being broken by the code: fetching the thumbnail of
an id that does not exist answers 500 (the `NotFound` raised by `get_or_404`
is an `Exception` and is swallowed by the handler's blanket `except`), not a
distinct 404 not-found outcome, and a text-origin record (no thumbnail)
answers 500 with the same status and error kind — the two failures differ
only in the non-contractual `details` string. -/
theorem get_history_image_missing_id_is_500 :
    get_history_image ⟨[], 1, 0⟩ 7 = ⟨500, .errorBody .notFoundAbort⟩ ∧
    (get_history_image ⟨[], 1, 0⟩ 7).status ≠ 404 ∧
    get_history_image ⟨[⟨1, none, some "banana peel", none, 0⟩], 2, 0⟩ 1 =
      ⟨500, .errorBody .typeErr⟩ ∧
    (get_history_image ⟨[⟨1, none, some "banana peel", none, 0⟩], 2, 0⟩ 1).status =
      (get_history_image ⟨[], 1, 0⟩ 7).status := by
  refine ⟨by decide, by decide, by decide, by decide⟩

/-- Counterexample to claim C7 as stated: a request whose `description` is
the empty string is not rejected — the guard only checks that the key is
present — so the classifier result is returned and a record is persisted. -/
theorem predict_text_empty_description_not_rejected :
    (predict_text true (some [("description", "")])
      (.ok ⟨some "compostable", some "banana peel"⟩) ⟨[], 1, 0⟩).1 ≠
        TextOutcome.validationError ∧
    (predict_text true (some [("description", "")])
      (.ok ⟨some "compostable", some "banana peel"⟩) ⟨[], 1, 0⟩).2.records ≠
        (⟨[], 1, 0⟩ : Database).records := by
  refine ⟨by decide, by decide⟩

/-- Claim C7, amended: `predict_text` rejects with the 400 validation error —
leaving the database unchanged and never consulting the classifier — exactly
when the JSON body is absent or lacks the `description` key; an empty-string
`description` passes this guard. -/
theorem predict_text_missing_description_rejected :
    (∀ upstream s, predict_text true none upstream s = (.validationError, s)) ∧
    (∀ data upstream s, List.lookup "description" data = none →
      predict_text true (some data) upstream s = (.validationError, s)) := by
  constructor
  · intro upstream s
    rfl
  · intro data upstream s hk
    simp only [predict_text]
    rw [if_pos (Or.inr hk)]

/-- Witness for the amended C7 at a concrete input: a body with only an
`item` key is rejected with the validation error and persists nothing. -/
theorem predict_text_missing_description_rejected_witness :
    List.lookup "description" [("item", "cup")] = none ∧
    predict_text true (some [("item", "cup")]) (.ok ⟨some "landfill", some "cup"⟩)
      ⟨[], 1, 0⟩ = (.validationError, ⟨[], 1, 0⟩) :=
  ⟨by decide,
    predict_text_missing_description_rejected.2 [("item", "cup")]
      (.ok ⟨some "landfill", some "cup"⟩) ⟨[], 1, 0⟩ (by decide)⟩

/-- Counterexample to claim C8 as stated: an upload whose file content is
empty (but whose filename is not) is not rejected — the handler never checks
the byte payload — so the classifier outcome is returned and a record is
persisted. -/
theorem predict_empty_bytes_not_rejected :
    (∀ msg, (predict (some ("img.jpg", []))
      (.ok ⟨some [⟨some "glass", some (mkRat 1 2)⟩]⟩) (.ok [9]) ⟨[], 1, 0⟩).1 ≠
        ImgOutcome.validationError msg) ∧
    (predict (some ("img.jpg", []))
      (.ok ⟨some [⟨some "glass", some (mkRat 1 2)⟩]⟩) (.ok [9]) ⟨[], 1, 0⟩).2.records ≠
        (⟨[], 1, 0⟩ : Database).records := by
  refine ⟨?_, by decide⟩
  intro msg h
  rw [show (predict (some ("img.jpg", []))
      (.ok ⟨some [⟨some "glass", some (mkRat 1 2)⟩]⟩) (.ok [9]) ⟨[], 1, 0⟩).1 =
    ImgOutcome.success ⟨some [⟨some "glass", some (mkRat 1 2)⟩]⟩ from by decide] at h
  cases h

/-- Claim C8, amended: `predict` rejects with a 400 validation error —
leaving the database unchanged and never consulting the classifier — exactly
when the file part is absent or the filename is empty; an empty byte payload
is not checked. -/
theorem predict_missing_file_or_filename_rejected :
    (∀ classify thumb s, predict none classify thumb s =
      (.validationError "No file part in the request", s)) ∧
    (∀ bytes classify thumb s, predict (some ("", bytes)) classify thumb s =
      (.validationError "No image selected for uploading", s)) := by
  constructor
  · intro classify thumb s
    rfl
  · intro bytes classify thumb s
    simp [predict]

/-- Counterexample to claim C9 as stated: an image-classifier entry whose
`tagName` is the empty string is persisted verbatim, yielding a stored record
whose `predicted_tag` is the empty string; and a text prediction whose parsed
output lacks the `item` field does not yield a substituted non-empty tag —
the insert violates the `NOT NULL` constraint and the request fails with the
generic 500, persisting nothing. -/
theorem persisted_tag_may_be_empty :
    ((predict (some ("a.jpg", [3])) (.ok ⟨some [⟨some "", some (mkRat 9 10)⟩]⟩)
      (.ok [7]) ⟨[], 1, 0⟩).2).records =
        [⟨1, some [7], some "", some (mkRat 9 10), 0⟩] ∧
    predict_text true (some [("description", "mystery")]) (.ok ⟨some "landfill", none⟩)
      ⟨[], 1, 0⟩ = (.genericError, ⟨[], 1, 0⟩) := by
  refine ⟨by decide, by decide⟩

/-- Claim C9, amended: every record persisted by either entry point carries a
present (non-null) `predicted_tag` string — a run appends at most one record,
and a missing `tagName` / `item` field makes the commit fail instead of
persisting a null — but the string may be empty; non-emptiness is not
enforced. -/
theorem persisted_tag_always_present :
    (∀ file classify thumb s,
      (predict file classify thumb s).2.records = s.records ∨
      ∃ r, (predict file classify thumb s).2.records = s.records ++ [r] ∧
        r.predicted_tag.isSome = true) ∧
    (∀ configured body upstream s,
      (predict_text configured body upstream s).2.records = s.records ∨
      ∃ r, (predict_text configured body upstream s).2.records = s.records ++ [r] ∧
        r.predicted_tag.isSome = true) := by
  constructor
  · intro file classify thumb s
    cases file with
    | none => exact Or.inl rfl
    | some fb =>
      obtain ⟨fn, bts⟩ := fb
      by_cases hfn : fn = ""
      · simp [predict, hfn]
      · cases classify with
        | error e => cases e <;> simp [predict, hfn]
        | ok results =>
          obtain ⟨po⟩ := results
          cases po with
          | none => simp [predict, hfn]
          | some pl =>
            cases pl with
            | nil => simp [predict, hfn]
            | cons p ps =>
              cases hmax : maxByProbability (p :: ps) with
              | error u => simp [predict, hfn, hmax]
              | ok top =>
                cases thumb with
                | error u => simp [predict, hfn, hmax]
                | ok td =>
                  cases htag : top.tagName with
                  | none => simp [predict, hfn, hmax, Database.append, htag]
                  | some t =>
                    right
                    refine ⟨⟨s.nextId, some td, some t, top.probability, s.now⟩, ?_, rfl⟩
                    simp [predict, hfn, hmax, Database.append, htag]
  · intro configured body upstream s
    cases configured with
    | false => exact Or.inl rfl
    | true =>
      cases body with
      | none => exact Or.inl rfl
      | some data =>
        by_cases hd : data = [] ∨ List.lookup "description" data = none
        · left
          simp only [predict_text]
          rw [if_pos hd]
        · cases upstream with
          | error e =>
            left
            cases e <;> (simp only [predict_text]; rw [if_neg hd])
          | ok resultData =>
            cases hitem : resultData.item with
            | none =>
              left
              simp only [predict_text]
              rw [if_neg hd]
              simp [Database.append, hitem]
            | some t =>
              right
              refine ⟨⟨s.nextId, none, some t, none, s.now⟩, ?_, rfl⟩
              simp only [predict_text]
              rw [if_neg hd]
              simp [Database.append, hitem]

end SmartWasteSorter
